import Mathlib

/-!
Shallow embedding of the "Monthly Overdue Invoice Email" scheduled job.

The repository holds three near-duplicate variants of one batch job:

* the primary variant (`_jj_sc_monthly_overdue_email.js`, first script):
  `searchOverdueInvoices` (grouping with composite-key deduplication),
  `processCustomerNotifications` / `sendCustomerEmail`, `getSenderId`,
  `createCSVFile`;
* a second variant in the same file after the document separator:
  `getOverdueInvoices` (no deduplication), `notifyCustomers`,
  `getSenderId` (returns the raw sales-rep id), `generateCsvFile`;
* a third variant (`src/unnamed/part_000`): inline grouping without
  deduplication and the sender expression
  `salesRepId || runtime.getCurrentUser().id`.

Host values read from the NetSuite search/record APIs are strings; the
empty string models a missing/falsy value (JavaScript treats both `''`
and `null`/`undefined` as falsy in the guards the scripts use).  Time is
epoch milliseconds as an integer; `new Date() - dueDate` is the integer
difference.  Calls into the host (customer lookup, employee lookup, file
save, email send) are modelled by an explicit environment of fallible
functions, since each of them can throw in the scripts.
-/

namespace OverdueEmail

/-- One result row of the invoice saved search: columns `entity`
(customer internal id, `""` when absent), `tranid`, `amount` (the host
returns it as a string) and `duedate` (epoch milliseconds). -/
structure InvoiceRow where
  entity : String
  tranid : String
  amount : String
  duedate : Int
deriving DecidableEq, Repr

/-- The per-invoice summary pushed into a customer's group:
`{ invoiceNumber, amount, daysOverdue }`. -/
structure InvoiceSummary where
  invoiceNumber : String
  amount : String
  daysOverdue : Int
deriving DecidableEq, Repr

/-- `Math.floor((new Date() - dueDate) / (1000 * 60 * 60 * 24))`.
Integer division on `Int` in Lean is Euclidean division, which for the
positive divisor 86400000 agrees with floor division, hence with
`Math.floor` of the exact quotient. -/
def daysOverdue (now due : Int) : Int :=
  (now - due) / 86400000

/-- The summary object built from a search result row. -/
def mkSummary (now : Int) (r : InvoiceRow) : InvoiceSummary :=
  { invoiceNumber := r.tranid, amount := r.amount, daysOverdue := daysOverdue now r.duedate }

/-- The composite deduplication key of the primary variant:
`` `${customerId}_${invoiceNumber}` ``. -/
def invoiceKey (customerId invoiceNumber : String) : String :=
  customerId ++ "_" ++ invoiceNumber

/-- `customerInvoices[customerId].push(summary)`, creating the key when
absent.  JavaScript objects keep one entry per key; the association list
keeps the first binding of each key and appends new keys at the end. -/
def pushGroup (gs : List (String × List InvoiceSummary)) (cid : String)
    (s : InvoiceSummary) : List (String × List InvoiceSummary) :=
  match gs with
  | [] => [(cid, [s])]
  | (k, l) :: rest =>
      if k = cid then (k, l ++ [s]) :: rest
      else (k, l) :: pushGroup rest cid s

/-- Accumulator of the primary variant's `each` callback: the
`processedInvoices` key set, the `invoiceCount` counter and the
`customerInvoices` grouping. -/
structure GroupState where
  processed : List String
  invoiceCount : Nat
  groups : List (String × List InvoiceSummary)
deriving DecidableEq, Repr

/-- One iteration of the primary variant's `each` callback: skip rows
without a customer id, skip rows whose composite key was already seen
(without touching `invoiceCount`), otherwise record the key, bump the
counter and push the summary. -/
def stepPrimary (now : Int) (st : GroupState) (r : InvoiceRow) : GroupState :=
  if r.entity = "" then st
  else
    let key := invoiceKey r.entity r.tranid
    if key ∈ st.processed then st
    else
      { processed := key :: st.processed
        invoiceCount := st.invoiceCount + 1
        groups := pushGroup st.groups r.entity (mkSummary now r) }

/-- The grouping built by the primary variant's `searchOverdueInvoices`
over the search result rows. -/
def searchOverdueInvoices (now : Int) (rows : List InvoiceRow) :
    List (String × List InvoiceSummary) :=
  (rows.foldl (stepPrimary now) ⟨[], 0, []⟩).groups

/-- The `invoiceCount` value logged by the primary variant
(`Total unique overdue invoices`). -/
def searchOverdueCount (now : Int) (rows : List InvoiceRow) : Nat :=
  (rows.foldl (stepPrimary now) ⟨[], 0, []⟩).invoiceCount

/-- One iteration of the grouping loop shared by the second and third
variants (`getOverdueInvoices` and the inline `each` callback of
`part_000`): no deduplication, only the missing-customer-id guard. -/
def stepNoDedup (now : Int) (gs : List (String × List InvoiceSummary))
    (r : InvoiceRow) : List (String × List InvoiceSummary) :=
  if r.entity = "" then gs
  else pushGroup gs r.entity (mkSummary now r)

/-- The grouping built by the second variant's `getOverdueInvoices`
(also the grouping of the third variant's inline loop). -/
def getOverdueInvoices (now : Int) (rows : List InvoiceRow) :
    List (String × List InvoiceSummary) :=
  rows.foldl (stepNoDedup now) []

/-- An untyped JavaScript value as far as the sender id is concerned:
either a number or a string. -/
inductive JSVal where
  | num (n : Int)
  | str (s : String)
deriving DecidableEq, Repr

/-- Model of `parseInt` on the canonical decimal internal ids the
scripts pass to it. -/
def jsParseInt (s : String) : Int :=
  (s.toInt?).getD 0

/-- Outcome of `search.lookupFields` / `record.load` on an employee:
the call may throw, or return the record's `email` field (`""` when the
employee has no email). -/
inductive LookupResult where
  | fail
  | found (email : String)
deriving DecidableEq, Repr

/-- The primary variant's `getSenderId`: `-5` for a falsy sales-rep id,
otherwise look the employee up (a thrown lookup falls back to `-5`),
returning `parseInt(salesRepId)` when the employee has an email and `-5`
otherwise. -/
def getSenderId (empDir : String → LookupResult) (salesRepId : String) : JSVal :=
  if salesRepId = "" then JSVal.num (-5)
  else
    match empDir salesRepId with
    | LookupResult.fail => JSVal.num (-5)
    | LookupResult.found email =>
        if email = "" then JSVal.num (-5)
        else JSVal.num (jsParseInt salesRepId)

/-- The second variant's `getSenderId`: same fallback structure but the
sales-rep id is returned as the value that was read from the record
(a string), not parsed. -/
def getSenderId2 (empDir : String → LookupResult) (salesRepId : String) : JSVal :=
  if salesRepId = "" then JSVal.num (-5)
  else
    match empDir salesRepId with
    | LookupResult.fail => JSVal.num (-5)
    | LookupResult.found email =>
        if email = "" then JSVal.num (-5)
        else JSVal.str salesRepId

/-- The third variant's sender expression
`salesRepId || runtime.getCurrentUser().id`: the sales-rep id when
truthy (no employee-email check at all), else the ambient current user's
id. -/
def senderIdV3 (salesRepId : String) (currentUserId : Int) : JSVal :=
  if salesRepId = "" then JSVal.num currentUserId
  else JSVal.str salesRepId

/-- Header row of the primary variant's CSV. -/
def csvHeader : String :=
  "Customer Name,Customer Email,Invoice Document Number,Invoice Amount,Days Overdue"

/-- One data record of the primary variant's CSV (without the trailing
newline): `"name","email",invoiceNumber,amount,daysOverdue`. -/
def csvLine (name cemail : String) (inv : InvoiceSummary) : String :=
  "\"" ++ name ++ "\",\"" ++ cemail ++ "\"," ++ inv.invoiceNumber ++ ","
    ++ inv.amount ++ "," ++ toString inv.daysOverdue

/-- The CSV text built by the primary variant's `createCSVFile`: the
header line then one newline-terminated record per invoice. -/
def createCSVContent (name cemail : String) (invs : List InvoiceSummary) : String :=
  invs.foldl (fun acc inv => acc ++ csvLine name cemail inv ++ "\n") (csvHeader ++ "\n")

/-- Header row of the second variant's CSV. -/
def csvHeader2 : String :=
  "Invoice Number,Amount,Days Overdue"

/-- One data record of the second variant's CSV. -/
def csvLine2 (inv : InvoiceSummary) : String :=
  inv.invoiceNumber ++ "," ++ inv.amount ++ "," ++ toString inv.daysOverdue

/-- The CSV text built by the second variant's `generateCsvFile`. -/
def generateCsvContent (invs : List InvoiceSummary) : String :=
  invs.foldl (fun acc inv => acc ++ csvLine2 inv ++ "\n") (csvHeader2 ++ "\n")

/-- The customer fields read by `sendCustomerEmail` via
`search.lookupFields` (`companyname`, `firstname`, `email`, `salesrep`);
`""` models an absent/falsy field, and for `salesrep` it models the
empty select-array (the script takes `salesrep[0].value` when the array
is non-empty and `null` otherwise). -/
structure CustomerFields where
  companyname : String
  firstname : String
  email : String
  salesrep : String
deriving DecidableEq, Repr

/-- `customerFields.companyname || customerFields.firstname || 'Customer'`. -/
def displayName (f : CustomerFields) : String :=
  if f.companyname ≠ "" then f.companyname
  else if f.firstname ≠ "" then f.firstname
  else "Customer"

/-- The argument object of `email.send` (the attachment is the loaded
CSV file; its text is kept directly). -/
structure Email where
  author : JSVal
  recipients : String
  subject : String
  body : String
  csv : String
deriving DecidableEq, Repr

/-- Severity of an `N/log` entry. -/
inductive LogLevel where
  | audit
  | error
deriving DecidableEq, Repr

/-- One `N/log` entry (title and details).  Only the audit/error entries
that the dispatch path and the early-exit path produce are modelled; the
debug entry with the saved file's internal id is not, since no file ids
exist in the model. -/
structure LogEntry where
  level : LogLevel
  title : String
  detail : String
deriving DecidableEq, Repr

/-- The host services the dispatch stage calls, each of which can throw
(`Except.error` carries the exception message): customer lookup,
employee lookup, file save and email send. -/
structure Env where
  customers : String → Except String CustomerFields
  empDir : String → LookupResult
  fileSave : String → Except String Unit
  send : Email → Except String Unit

/-- `createCSVFile`: render the CSV text, save it through the file
service (`file.create` + `csvFile.save` + `file.load`, any of which may
throw) and return the loaded file's text. -/
def createCSVFile (env : Env) (name cemail : String) (invs : List InvoiceSummary) :
    Except String String :=
  let content := createCSVContent name cemail invs
  match env.fileSave content with
  | Except.error m => Except.error m
  | Except.ok _ => Except.ok content

/-- The `Missing Email` error entry logged before skipping a customer. -/
def missingEmailLog (name cid : String) : LogEntry :=
  { level := LogLevel.error
    title := "Missing Email"
    detail := "Customer " ++ name ++ " (ID: " ++ cid ++ ") has no email. Skipping." }

/-- The `Email Sent` audit entry. -/
def emailSentLog (cemail : String) (n : Nat) : LogEntry :=
  { level := LogLevel.audit
    title := "Email Sent"
    detail := "Email sent to " ++ cemail ++ " with " ++ toString n ++ " overdue invoices." }

/-- The primary variant's `sendCustomerEmail`: load the customer's
fields (a throw propagates), skip customers without an email (logging
`Missing Email` and sending nothing), otherwise resolve the sender,
build the CSV attachment and send the email; a throw from the file or
email service propagates to the caller.  The result carries the log
entries written on the non-throwing paths and the sent email, if any. -/
def sendCustomerEmail (env : Env) (cid : String) (invs : List InvoiceSummary) :
    Except String (List LogEntry × Option Email) :=
  match env.customers cid with
  | Except.error m => Except.error m
  | Except.ok f =>
      let name := displayName f
      if f.email = "" then Except.ok ([missingEmailLog name cid], none)
      else
        let senderId := getSenderId env.empDir f.salesrep
        match createCSVFile env name f.email invs with
        | Except.error m => Except.error m
        | Except.ok csv =>
            let mail : Email :=
              { author := senderId
                recipients := f.email
                subject := "Overdue Invoice Notification"
                body := "Dear " ++ name ++ ",\n\nPlease find attached your overdue invoices."
                csv := csv }
            match env.send mail with
            | Except.error m => Except.error m
            | Except.ok _ => Except.ok ([emailSentLog f.email invs.length], some mail)

/-- The email the processing loop sends for one customer group, when it
sends one, paired with the customer id the loop iteration handled. -/
def dispatchOutcome (env : Env) (g : String × List InvoiceSummary) :
    Option (String × Email) :=
  match sendCustomerEmail env g.1 g.2 with
  | Except.ok (_, some e) => some (g.1, e)
  | _ => none

/-- The `Email Send Error` entry of `sendCustomerEmail`'s catch block. -/
def emailSendErrorLog (cid msg : String) : LogEntry :=
  { level := LogLevel.error
    title := "Email Send Error"
    detail := "Failed to send email to customer ID " ++ cid ++ ": " ++ msg }

/-- The `Customer Processing Error` entry of the per-customer catch in
`processCustomerNotifications`. -/
def custProcErrorLog (cid msg : String) : LogEntry :=
  { level := LogLevel.error
    title := "Customer Processing Error"
    detail := "Failed to process customer ID " ++ cid ++ ": " ++ msg }

/-- The log entries one loop iteration writes: the entries of the
non-throwing paths, or — when `sendCustomerEmail` throws — its catch
entry followed by the loop's catch entry. -/
def stepLogs (env : Env) (g : String × List InvoiceSummary) : List LogEntry :=
  match sendCustomerEmail env g.1 g.2 with
  | Except.ok (ls, _) => ls
  | Except.error m => [emailSendErrorLog g.1 m, custProcErrorLog g.1 m]

/-- Accumulated outcome of a run: the emails sent (paired with the
customer id whose iteration sent them) and the log. -/
structure RunResult where
  sent : List (String × Email)
  log : List LogEntry
deriving DecidableEq, Repr

/-- One iteration of `processCustomerNotifications`'s `for...in` loop:
a thrown `sendCustomerEmail` is caught at the per-customer boundary and
logged, so the fold always proceeds to the next group. -/
def processStep (env : Env) (acc : RunResult) (g : String × List InvoiceSummary) :
    RunResult :=
  match sendCustomerEmail env g.1 g.2 with
  | Except.ok (ls, some e) => { sent := acc.sent ++ [(g.1, e)], log := acc.log ++ ls }
  | Except.ok (ls, none) => { acc with log := acc.log ++ ls }
  | Except.error m =>
      { acc with log := acc.log ++ [emailSendErrorLog g.1 m, custProcErrorLog g.1 m] }

/-- The primary variant's `processCustomerNotifications`.  JavaScript
iterates integer-like object keys in ascending numeric order rather
than insertion order; the model iterates the association list in
insertion order — no claim depends on the iteration order of the
groups. -/
def processCustomerNotifications (env : Env)
    (gs : List (String × List InvoiceSummary)) : RunResult :=
  gs.foldl (processStep env) { sent := [], log := [] }

/-- The `Script Started` audit entry. -/
def startLog : LogEntry :=
  { level := LogLevel.audit
    title := "Script Started"
    detail := "Monthly Overdue Invoice Email Notification" }

/-- The `No Invoices Found` audit entry of the early exit. -/
def noInvoicesLog : LogEntry :=
  { level := LogLevel.audit
    title := "No Invoices Found"
    detail := "No overdue invoices were found for the previous month." }

/-- The `Customers to Notify` audit entry. -/
def customersToNotifyLog (n : Nat) : LogEntry :=
  { level := LogLevel.audit
    title := "Customers to Notify"
    detail := "Total customers with overdue invoices: " ++ toString n }

/-- The `Script End` audit entry. -/
def endLog : LogEntry :=
  { level := LogLevel.audit
    title := "Script End"
    detail := "Overdue Invoice Email Notification script completed successfully." }

/-- The primary variant's `execute`, given the rows the invoice search
returned: group them, exit early (successfully, with a no-op audit
entry) when no customer group exists, otherwise run the notification
loop. -/
def executeRun (env : Env) (now : Int) (rows : List InvoiceRow) : RunResult :=
  let groups := searchOverdueInvoices now rows
  if groups = [] then
    { sent := [], log := [startLog, noInvoicesLog] }
  else
    let r := processCustomerNotifications env groups
    { sent := r.sent
      log := [startLog, customersToNotifyLog groups.length] ++ r.log ++ [endLog] }

/-- An invoice as the search filters see it: its status code, due date
(epoch milliseconds) and whether the row is the transaction's main
line. -/
structure InvoiceRecord where
  status : String
  duedate : Int
  mainline : Bool
deriving DecidableEq, Repr

/-- The filter expression of the primary variant's `search.create`:
`status anyof CustInvc:A AND duedate before lastmonth AND mainline is T`. -/
def invoiceFiltersPrimary : List (String × String × String) :=
  [("status", "anyof", "CustInvc:A"), ("duedate", "before", "lastmonth"),
    ("mainline", "is", "T")]

/-- The filter expression of the second and third variants'
`search.create`: `status anyof CustInvc:A AND duedate before lastmonth`. -/
def invoiceFiltersV2 : List (String × String × String) :=
  [("status", "anyof", "CustInvc:A"), ("duedate", "before", "lastmonth")]

/-- Modelled from the spec: the ERP's search engine, which evaluates the
filter expressions, is outside the repository.  Per the spec's query
contract, the relative-date clause `duedate before lastmonth` selects
due dates strictly before the first day of the current calendar month
(`som` is that instant), `status anyof V` compares the invoice's status
code with `V`, and `mainline is T` selects the transaction's main
line. -/
def evalFilter (som : Int) (inv : InvoiceRecord) (f : String × String × String) : Bool :=
  if f.1 = "status" ∧ f.2.1 = "anyof" then inv.status = f.2.2
  else if f.1 = "duedate" ∧ f.2.1 = "before" ∧ f.2.2 = "lastmonth" then inv.duedate < som
  else if f.1 = "mainline" ∧ f.2.1 = "is" then inv.mainline = (f.2.2 = "T")
  else false

/-- An invoice record is selected when every filter clause holds (the
scripts join the clauses with `AND`). -/
def matchesFilters (som : Int) (inv : InvoiceRecord)
    (fs : List (String × String × String)) : Bool :=
  fs.all (evalFilter som inv)

/-- A string free of the CSV record separator, so that interpolating it
into a record adds no line break. -/
def noNL (s : String) : Prop :=
  s.data.count '\n' = 0

instance (s : String) : Decidable (noNL s) := by
  unfold noNL
  infer_instance

/-- Test employee directory: employee 42 has an email, employee 43
exists without one, every other lookup throws. -/
def dirFixture : String → LookupResult := fun i =>
  if i = "42" then LookupResult.found "rep@x.com"
  else if i = "43" then LookupResult.found ""
  else LookupResult.fail

/-- Test environment whose only customer record has no email on file. -/
def envNoEmail : Env :=
  { customers := fun _ => Except.ok { companyname := "Acme", firstname := "", email := "", salesrep := "" }
    empDir := fun _ => LookupResult.fail
    fileSave := fun _ => Except.ok ()
    send := fun _ => Except.ok () }

/-- Test environment in which every customer record load throws. -/
def envFailing : Env :=
  { customers := fun _ => Except.error "boom"
    empDir := fun _ => LookupResult.fail
    fileSave := fun _ => Except.ok ()
    send := fun _ => Except.ok () }

/-- Test environment in which every host call succeeds and the customer
has an email and no sales rep. -/
def envHappy : Env :=
  { customers := fun _ => Except.ok { companyname := "Acme", firstname := "", email := "a@b.com", salesrep := "" }
    empDir := fun _ => LookupResult.fail
    fileSave := fun _ => Except.ok ()
    send := fun _ => Except.ok () }

/-- The (customer id, email) pair the happy-path test run over one
invoice row sends: administrator sender, the fixture customer's
address, and the one-record CSV attachment. -/
def happySent : String × Email :=
  ("1",
    { author := JSVal.num (-5)
      recipients := "a@b.com"
      subject := "Overdue Invoice Notification"
      body := "Dear Acme,\n\nPlease find attached your overdue invoices."
      csv := "Customer Name,Customer Email,Invoice Document Number,Invoice Amount,Days Overdue\n\"Acme\",\"a@b.com\",INV1,100,0\n" })

end OverdueEmail
namespace OverdueEmail

theorem pushGroup_mem {gs : List (String × List InvoiceSummary)} {cid : String}
    {s : InvoiceSummary} {k : String} {l : List InvoiceSummary}
    (h : (k, l) ∈ pushGroup gs cid s) :
    (k, l) ∈ gs ∨ (k = cid ∧ (l = [s] ∨ ∃ l0, (cid, l0) ∈ gs ∧ l = l0 ++ [s])) := by
  induction gs with
  | nil =>
      simp only [pushGroup, List.mem_singleton, Prod.mk.injEq] at h
      exact Or.inr ⟨h.1, Or.inl h.2⟩
  | cons g rest ih =>
      obtain ⟨k0, l0⟩ := g
      by_cases hk : k0 = cid
      · subst hk
        simp [pushGroup] at h
        rcases h with ⟨rfl, rfl⟩ | hmem
        · exact Or.inr ⟨rfl, Or.inr ⟨l0, List.mem_cons_self _ _, rfl⟩⟩
        · exact Or.inl (List.mem_cons_of_mem _ hmem)
      · simp [pushGroup, hk] at h
        rcases h with ⟨rfl, rfl⟩ | hmem
        · exact Or.inl (List.mem_cons_self _ _)
        · rcases ih hmem with h' | ⟨rfl, h'⟩
          · exact Or.inl (List.mem_cons_of_mem _ h')
          · refine Or.inr ⟨rfl, ?_⟩
            rcases h' with rfl | ⟨l1, hmem1, rfl⟩
            · exact Or.inl rfl
            · exact Or.inr ⟨l1, List.mem_cons_of_mem _ hmem1, rfl⟩

theorem pushGroup_sum (gs : List (String × List InvoiceSummary)) (cid : String)
    (s : InvoiceSummary) :
    ((pushGroup gs cid s).map (fun g => g.2.length)).sum
      = (gs.map (fun g => g.2.length)).sum + 1 := by
  induction gs with
  | nil => simp [pushGroup]
  | cons g rest ih =>
      obtain ⟨k0, l0⟩ := g
      by_cases hk : k0 = cid <;> simp [pushGroup, hk, ih] <;> omega

theorem stepPrimary_inv (now : Int) (st : GroupState) (r : InvoiceRow)
    (h1 : ∀ k l, (k, l) ∈ st.groups → ∀ s ∈ l, invoiceKey k s.invoiceNumber ∈ st.processed)
    (h2 : ∀ k l, (k, l) ∈ st.groups → (l.map InvoiceSummary.invoiceNumber).Nodup)
    (h3 : st.invoiceCount = (st.groups.map (fun g => g.2.length)).sum) :
    (∀ k l, (k, l) ∈ (stepPrimary now st r).groups →
      ∀ s ∈ l, invoiceKey k s.invoiceNumber ∈ (stepPrimary now st r).processed) ∧
    (∀ k l, (k, l) ∈ (stepPrimary now st r).groups →
      (l.map InvoiceSummary.invoiceNumber).Nodup) ∧
    (stepPrimary now st r).invoiceCount
      = ((stepPrimary now st r).groups.map (fun g => g.2.length)).sum := by
  by_cases he : r.entity = ""
  · simp only [stepPrimary, if_pos he]
    exact ⟨h1, h2, h3⟩
  · by_cases hkey : invoiceKey r.entity r.tranid ∈ st.processed
    · simp only [stepPrimary, if_neg he, if_pos hkey]
      exact ⟨h1, h2, h3⟩
    · simp only [stepPrimary, if_neg he, if_neg hkey]
      refine ⟨?_, ?_, ?_⟩
      · intro k l hmem s hs
        rcases pushGroup_mem hmem with hold | ⟨rfl, hl⟩
        · exact List.mem_cons_of_mem _ (h1 k l hold s hs)
        · rcases hl with rfl | ⟨l0, hl0, rfl⟩
          · rw [List.mem_singleton] at hs
            subst hs
            exact List.mem_cons_self _ _
          · rcases List.mem_append.mp hs with hs0 | hs1
            · exact List.mem_cons_of_mem _ (h1 _ _ hl0 s hs0)
            · rw [List.mem_singleton] at hs1
              subst hs1
              exact List.mem_cons_self _ _
      · intro k l hmem
        rcases pushGroup_mem hmem with hold | ⟨rfl, hl⟩
        · exact h2 k l hold
        · rcases hl with rfl | ⟨l0, hl0, rfl⟩
          · simp
          · rw [List.map_append]
            refine List.nodup_append.mpr ⟨h2 _ _ hl0, by simp, ?_⟩
            intro a ha hb
            simp only [mkSummary, List.map_cons, List.map_nil, List.mem_singleton] at hb
            subst hb
            rcases List.mem_map.mp ha with ⟨s0, hs0, hs0e⟩
            exact hkey (hs0e ▸ h1 _ _ hl0 s0 hs0)
      · rw [pushGroup_sum]
        omega

end OverdueEmail
namespace OverdueEmail

theorem processStep_sent (env : Env) (acc : RunResult) (g : String × List InvoiceSummary) :
    (processStep env acc g).sent = acc.sent ++ (dispatchOutcome env g).toList := by
  cases h : sendCustomerEmail env g.1 g.2 with
  | error m => simp [processStep, dispatchOutcome, h]
  | ok p =>
      obtain ⟨ls, oe⟩ := p
      cases oe <;> simp [processStep, dispatchOutcome, h]

theorem processStep_log (env : Env) (acc : RunResult) (g : String × List InvoiceSummary) :
    (processStep env acc g).log = acc.log ++ stepLogs env g := by
  cases h : sendCustomerEmail env g.1 g.2 with
  | error m => simp [processStep, stepLogs, h]
  | ok p =>
      obtain ⟨ls, oe⟩ := p
      cases oe <;> simp [processStep, stepLogs, h]

theorem foldl_processStep_sent (env : Env) (gs : List (String × List InvoiceSummary)) :
    ∀ acc : RunResult,
      (gs.foldl (processStep env) acc).sent = acc.sent ++ gs.filterMap (dispatchOutcome env) := by
  induction gs with
  | nil => intro acc; simp
  | cons g gs ih =>
      intro acc
      rw [List.foldl_cons, ih, processStep_sent, List.filterMap_cons]
      cases hd : dispatchOutcome env g <;> simp [hd]

theorem foldl_processStep_log (env : Env) (gs : List (String × List InvoiceSummary)) :
    ∀ acc : RunResult,
      (gs.foldl (processStep env) acc).log = acc.log ++ (gs.map (stepLogs env)).flatten := by
  induction gs with
  | nil => intro acc; simp
  | cons g gs ih =>
      intro acc
      rw [List.foldl_cons, ih, processStep_log]
      simp

theorem processCustomerNotifications_sent (env : Env)
    (gs : List (String × List InvoiceSummary)) :
    (processCustomerNotifications env gs).sent = gs.filterMap (dispatchOutcome env) := by
  simpa [processCustomerNotifications] using foldl_processStep_sent env gs ⟨[], []⟩

theorem processCustomerNotifications_log (env : Env)
    (gs : List (String × List InvoiceSummary)) :
    (processCustomerNotifications env gs).log = (gs.map (stepLogs env)).flatten := by
  simpa [processCustomerNotifications] using foldl_processStep_log env gs ⟨[], []⟩

theorem sendCustomerEmail_some_csv {env : Env} {cid : String} {invs : List InvoiceSummary}
    {ls : List LogEntry} {e : Email}
    (h : sendCustomerEmail env cid invs = Except.ok (ls, some e)) :
    ∃ f : CustomerFields, env.customers cid = Except.ok f ∧ f.email ≠ "" ∧
      e.csv = createCSVContent (displayName f) f.email invs ∧ e.recipients = f.email := by
  cases hc : env.customers cid with
  | error m => simp [sendCustomerEmail, hc] at h
  | ok f =>
      by_cases he : f.email = ""
      · simp [sendCustomerEmail, hc, he] at h
      · cases hf : env.fileSave (createCSVContent (displayName f) f.email invs) with
        | error m => simp [sendCustomerEmail, hc, he, createCSVFile, hf] at h
        | ok u =>
            cases hs : env.send
                { author := getSenderId env.empDir f.salesrep
                  recipients := f.email
                  subject := "Overdue Invoice Notification"
                  body := "Dear " ++ displayName f ++ ",\n\nPlease find attached your overdue invoices."
                  csv := createCSVContent (displayName f) f.email invs } with
            | error m => simp [sendCustomerEmail, hc, he, createCSVFile, hf, hs] at h
            | ok v =>
                simp [sendCustomerEmail, hc, he, createCSVFile, hf, hs] at h
                exact ⟨f, rfl, he, by rw [← h.2], by rw [← h.2]⟩

end OverdueEmail
namespace OverdueEmail

theorem foldl_csvline_prefix (f : InvoiceSummary → String) (invs : List InvoiceSummary) :
    ∀ init : String,
      init.data <+: (invs.foldl (fun acc inv => acc ++ f inv ++ "\n") init).data := by
  induction invs with
  | nil => intro init; exact List.prefix_rfl
  | cons a l ih =>
      intro init
      refine List.IsPrefix.trans ?_ (ih (init ++ f a ++ "\n"))
      simp only [String.data_append, List.append_assoc]
      exact List.prefix_append _ _

theorem foldl_csvline_count_ge (f : InvoiceSummary → String) (invs : List InvoiceSummary) :
    ∀ init : String,
      init.data.count '\n' + invs.length
        ≤ (invs.foldl (fun acc inv => acc ++ f inv ++ "\n") init).data.count '\n' := by
  induction invs with
  | nil => intro init; simp
  | cons a l ih =>
      intro init
      refine le_trans ?_ (ih (init ++ f a ++ "\n"))
      simp only [String.data_append, List.count_append, List.length_cons]
      have h1 : List.count '\n' ['\n'] = 1 := by decide
      omega

theorem foldl_csvline_count_eq (f : InvoiceSummary → String) (invs : List InvoiceSummary)
    (hf : ∀ inv ∈ invs, (f inv).data.count '\n' = 0) :
    ∀ init : String,
      (invs.foldl (fun acc inv => acc ++ f inv ++ "\n") init).data.count '\n'
        = init.data.count '\n' + invs.length := by
  induction invs with
  | nil => intro init; simp
  | cons a l ih =>
      intro init
      have ha : (f a).data.count '\n' = 0 := hf a (List.mem_cons_self _ _)
      have ih' := ih (fun inv hinv => hf inv (List.mem_cons_of_mem _ hinv)) (init ++ f a ++ "\n")
      rw [List.foldl_cons, ih']
      simp only [String.data_append, List.count_append, List.length_cons]
      have h1 : List.count '\n' ['\n'] = 1 := by decide
      omega

theorem csvLine_no_newline (name cemail : String) (inv : InvoiceSummary)
    (hn : noNL name) (he : noNL cemail) (h1 : noNL inv.invoiceNumber)
    (h2 : noNL inv.amount) (h3 : noNL (toString inv.daysOverdue)) :
    (csvLine name cemail inv).data.count '\n' = 0 := by
  unfold noNL at hn he h1 h2 h3
  simp only [csvLine, String.data_append, List.count_append]
  have hq : List.count '\n' ['\"'] = 0 := by decide
  have hc1 : List.count '\n' ['\"', ',', '\"'] = 0 := by decide
  have hc2 : List.count '\n' ['\"', ','] = 0 := by decide
  have hc3 : List.count '\n' [','] = 0 := by decide
  omega

theorem csvLine2_no_newline (inv : InvoiceSummary)
    (h1 : noNL inv.invoiceNumber) (h2 : noNL inv.amount)
    (h3 : noNL (toString inv.daysOverdue)) :
    (csvLine2 inv).data.count '\n' = 0 := by
  unfold noNL at h1 h2 h3
  simp only [csvLine2, String.data_append, List.count_append]
  have hc3 : List.count '\n' [','] = 0 := by decide
  omega

end OverdueEmail
namespace OverdueEmail

theorem pushGroup_ne_nil {gs : List (String × List InvoiceSummary)} {cid : String}
    {s : InvoiceSummary} {k : String} {l : List InvoiceSummary}
    (hne : ∀ k' l', (k', l') ∈ gs → l' ≠ [])
    (h : (k, l) ∈ pushGroup gs cid s) : l ≠ [] := by
  rcases pushGroup_mem h with h' | ⟨_, h'⟩
  · exact hne _ _ h'
  · rcases h' with rfl | ⟨l0, _, rfl⟩ <;> simp

theorem foldl_stepPrimary_ne_nil (now : Int) (rows : List InvoiceRow) :
    ∀ st : GroupState, (∀ k l, (k, l) ∈ st.groups → l ≠ []) →
      ∀ k l, (k, l) ∈ (rows.foldl (stepPrimary now) st).groups → l ≠ [] := by
  induction rows with
  | nil => exact fun st h => h
  | cons r rows ih =>
      intro st h
      refine ih _ ?_
      intro k l hm
      by_cases he : r.entity = ""
      · rw [stepPrimary, if_pos he] at hm
        exact h k l hm
      · by_cases hkey : invoiceKey r.entity r.tranid ∈ st.processed
        · simp only [stepPrimary, if_neg he, if_pos hkey] at hm
          exact h k l hm
        · simp only [stepPrimary, if_neg he, if_neg hkey] at hm
          exact pushGroup_ne_nil h hm

theorem foldl_stepNoDedup_ne_nil (now : Int) (rows : List InvoiceRow) :
    ∀ gs : List (String × List InvoiceSummary), (∀ k l, (k, l) ∈ gs → l ≠ []) →
      ∀ k l, (k, l) ∈ rows.foldl (stepNoDedup now) gs → l ≠ [] := by
  induction rows with
  | nil => exact fun gs h => h
  | cons r rows ih =>
      intro gs h
      refine ih _ ?_
      intro k l hm
      by_cases he : r.entity = ""
      · rw [stepNoDedup, if_pos he] at hm
        exact h k l hm
      · rw [stepNoDedup, if_neg he] at hm
        exact pushGroup_ne_nil h hm

theorem foldl_stepPrimary_inv (now : Int) (rows : List InvoiceRow) :
    ∀ st : GroupState,
      (∀ k l, (k, l) ∈ st.groups → ∀ s ∈ l, invoiceKey k s.invoiceNumber ∈ st.processed) →
      (∀ k l, (k, l) ∈ st.groups → (l.map InvoiceSummary.invoiceNumber).Nodup) →
      st.invoiceCount = (st.groups.map (fun g => g.2.length)).sum →
      (∀ k l, (k, l) ∈ (rows.foldl (stepPrimary now) st).groups →
          ∀ s ∈ l, invoiceKey k s.invoiceNumber ∈ (rows.foldl (stepPrimary now) st).processed) ∧
      (∀ k l, (k, l) ∈ (rows.foldl (stepPrimary now) st).groups →
          (l.map InvoiceSummary.invoiceNumber).Nodup) ∧
      (rows.foldl (stepPrimary now) st).invoiceCount
        = ((rows.foldl (stepPrimary now) st).groups.map (fun g => g.2.length)).sum := by
  induction rows with
  | nil => exact fun st h1 h2 h3 => ⟨h1, h2, h3⟩
  | cons r rows ih =>
      intro st h1 h2 h3
      obtain ⟨g1, g2, g3⟩ := stepPrimary_inv now st r h1 h2 h3
      exact ih _ g1 g2 g3

end OverdueEmail
namespace OverdueEmail

/-- C1 (amended): in the primary variant, each (customerId,
invoiceNumber) pair yields at most one invoice summary in that
customer's group, and the logged unique-invoice count equals the total
number of summaries, so a skipped duplicate increments no count. -/
theorem primary_grouping_dedup (now : Int) (rows : List InvoiceRow) :
    (∀ k l, (k, l) ∈ searchOverdueInvoices now rows →
      (l.map InvoiceSummary.invoiceNumber).Nodup) ∧
    searchOverdueCount now rows
      = ((searchOverdueInvoices now rows).map (fun g => g.2.length)).sum := by
  have h := foldl_stepPrimary_inv now rows ⟨[], 0, []⟩ (by simp) (by simp) (by simp)
  exact ⟨h.2.1, h.2.2⟩

/-- C1 witness: two identical [entity 1, tranid INV1] rows produce one
duplicate-free summary list and a unique count of 1. -/
theorem primary_grouping_dedup_witness :
    (([⟨"INV1", "100", 0⟩] : List InvoiceSummary).map InvoiceSummary.invoiceNumber).Nodup ∧
    searchOverdueCount 0 [⟨"1", "INV1", "100", 0⟩, ⟨"1", "INV1", "100", 0⟩]
      = ((searchOverdueInvoices 0 [⟨"1", "INV1", "100", 0⟩, ⟨"1", "INV1", "100", 0⟩]).map
          (fun g => g.2.length)).sum :=
  ⟨(primary_grouping_dedup 0 [⟨"1", "INV1", "100", 0⟩, ⟨"1", "INV1", "100", 0⟩]).1
      "1" _ (by decide),
    (primary_grouping_dedup 0 [⟨"1", "INV1", "100", 0⟩, ⟨"1", "INV1", "100", 0⟩]).2⟩

/-- C1 counterexample: the second variant's `getOverdueInvoices` (the
third variant's inline loop is the same fold) has no deduplication: an
invoice set with two entries of identical (customerId, invoiceNumber)
yields a customer group with two summaries for that pair, not one. -/
theorem dedup_absent_in_second_variant_cex :
    ∃ l, ("1", l) ∈ getOverdueInvoices 0 [⟨"1", "INV1", "100", 0⟩, ⟨"1", "INV1", "100", 0⟩] ∧
      l.map InvoiceSummary.invoiceNumber = ["INV1", "INV1"] :=
  ⟨[⟨"INV1", "100", 0⟩, ⟨"INV1", "100", 0⟩], by decide, by decide⟩

/-- C2 (amended): for the two `getSenderId` variants the claim holds
(the primary returns the parsed rep id, the second the raw one): a
falsy sales-rep id gives the administrator sentinel -5, a rep with an
email gives the rep's identifier, and a rep without email or a throwing
employee lookup gives -5.  The third variant instead falls back to the
ambient current user and never checks the rep's email. -/
theorem sender_resolution_getSenderId_variants (dir : String → LookupResult) (rid : String) :
    (rid = "" → getSenderId dir rid = JSVal.num (-5) ∧ getSenderId2 dir rid = JSVal.num (-5)) ∧
    (∀ e, rid ≠ "" → dir rid = LookupResult.found e → e ≠ "" →
      getSenderId dir rid = JSVal.num (jsParseInt rid) ∧ getSenderId2 dir rid = JSVal.str rid) ∧
    (rid ≠ "" → dir rid = LookupResult.fail ∨ dir rid = LookupResult.found "" →
      getSenderId dir rid = JSVal.num (-5) ∧ getSenderId2 dir rid = JSVal.num (-5)) := by
  refine ⟨?_, ?_, ?_⟩
  · intro h
    simp [getSenderId, getSenderId2, h]
  · intro e h he hne
    simp [getSenderId, getSenderId2, h, he, hne]
  · intro h hd
    rcases hd with hd | hd <;> simp [getSenderId, getSenderId2, h, hd]

/-- C2 witness: employee 42 has an email, employee 43 has none and any
other employee lookup throws; the two getSenderId variants resolve the
sender accordingly in all three cases. -/
theorem sender_resolution_getSenderId_variants_witness :
    (getSenderId dirFixture "" = JSVal.num (-5) ∧ getSenderId2 dirFixture "" = JSVal.num (-5)) ∧
    (getSenderId dirFixture "42" = JSVal.num (jsParseInt "42") ∧
      getSenderId2 dirFixture "42" = JSVal.str "42") ∧
    (getSenderId dirFixture "43" = JSVal.num (-5) ∧ getSenderId2 dirFixture "43" = JSVal.num (-5)) ∧
    (getSenderId dirFixture "99" = JSVal.num (-5) ∧ getSenderId2 dirFixture "99" = JSVal.num (-5)) :=
  ⟨(sender_resolution_getSenderId_variants dirFixture "").1 rfl,
    (sender_resolution_getSenderId_variants dirFixture "42").2.1 "rep@x.com"
      (by decide) (by decide) (by decide),
    (sender_resolution_getSenderId_variants dirFixture "43").2.2 (by decide)
      (Or.inr (by decide)),
    (sender_resolution_getSenderId_variants dirFixture "99").2.2 (by decide)
      (Or.inl (by decide))⟩

/-- C2 counterexample: the third variant's sender expression
`salesRepId || runtime.getCurrentUser().id` (current user id 7 here)
returns the current user, not -5, when no rep is assigned, and returns
the rep id without consulting any employee email when a rep is
assigned — so neither of the claim's -5 cases holds there. -/
theorem sender_fallback_v3_cex :
    senderIdV3 "" 7 ≠ JSVal.num (-5) ∧ senderIdV3 "42" 7 ≠ JSVal.num (-5) := by
  decide

end OverdueEmail
namespace OverdueEmail

/-- C3: the dispatch loop's outcome is pointwise — each group's email
depends only on that group — and any `sendCustomerEmail` failure
(customer load, attachment creation or send) is caught at the
per-customer boundary and logged under `Customer Processing Error` with
the customer identifier inside the detail text, so one customer's
failure never prevents the remaining groups' outcomes. -/
theorem per_customer_failure_isolated (env : Env) (gs : List (String × List InvoiceSummary)) :
    (processCustomerNotifications env gs).sent = gs.filterMap (dispatchOutcome env) ∧
    ∀ g ∈ gs, ∀ msg, sendCustomerEmail env g.1 g.2 = Except.error msg →
      custProcErrorLog g.1 msg ∈ (processCustomerNotifications env gs).log ∧
      g.1.data <:+: (custProcErrorLog g.1 msg).detail.data := by
  refine ⟨processCustomerNotifications_sent env gs, ?_⟩
  intro g hg msg hmsg
  constructor
  · rw [processCustomerNotifications_log]
    refine List.mem_flatten.mpr ⟨stepLogs env g, List.mem_map_of_mem _ hg, ?_⟩
    simp [stepLogs, hmsg]
  · refine ⟨("Failed to process customer ID ").data, (": " ++ msg).data, ?_⟩
    simp [custProcErrorLog, String.data_append, List.append_assoc]

/-- C3 witness: with every customer record load throwing, both groups
are still processed, the batch sends nothing, and the first customer's
failure is logged with its identifier. -/
theorem per_customer_failure_isolated_witness :
    (processCustomerNotifications envFailing [("7", []), ("8", [])]).sent
        = ([("7", []), ("8", [])] : List (String × List InvoiceSummary)).filterMap
            (dispatchOutcome envFailing) ∧
    custProcErrorLog "7" "boom"
        ∈ (processCustomerNotifications envFailing [("7", []), ("8", [])]).log ∧
    ("7" : String).data <:+: (custProcErrorLog "7" "boom").detail.data :=
  ⟨(per_customer_failure_isolated envFailing [("7", []), ("8", [])]).1,
    (per_customer_failure_isolated envFailing [("7", []), ("8", [])]).2
      ("7", []) (by decide) "boom" rfl⟩

/-- C4: a customer whose loaded record has no email is excluded from
dispatch: `sendCustomerEmail` returns without sending (logging `Missing
Email`), and no sent email of the whole run is attributed to that
customer id. -/
theorem no_email_customer_excluded (env : Env) (gs : List (String × List InvoiceSummary))
    (cid : String) (invs : List InvoiceSummary) (f : CustomerFields)
    (hc : env.customers cid = Except.ok f) (he : f.email = "") :
    sendCustomerEmail env cid invs
        = Except.ok ([missingEmailLog (displayName f) cid], none) ∧
    ∀ e : Email, (cid, e) ∉ (processCustomerNotifications env gs).sent := by
  have hskip : ∀ invs' : List InvoiceSummary,
      sendCustomerEmail env cid invs'
        = Except.ok ([missingEmailLog (displayName f) cid], none) := by
    intro invs'
    simp [sendCustomerEmail, hc, he]
  refine ⟨hskip invs, ?_⟩
  intro e hmem
  rw [processCustomerNotifications_sent] at hmem
  rcases List.mem_filterMap.mp hmem with ⟨g, hg, hout⟩
  cases hsc : sendCustomerEmail env g.1 g.2 with
  | error m => simp [dispatchOutcome, hsc] at hout
  | ok p =>
      obtain ⟨ls, oe⟩ := p
      cases oe with
      | none => simp [dispatchOutcome, hsc] at hout
      | some e' =>
          simp [dispatchOutcome, hsc] at hout
          rw [hout.1] at hsc
          rw [hskip g.2] at hsc
          simp at hsc

/-- C4 witness: the only customer on file has no email; the dispatch
for it sends nothing and the run's sent list never mentions it. -/
theorem no_email_customer_excluded_witness :
    sendCustomerEmail envNoEmail "1" []
        = Except.ok ([missingEmailLog (displayName ⟨"Acme", "", "", ""⟩) "1"], none) ∧
    ∀ e : Email, ("1", e) ∉ (processCustomerNotifications envNoEmail [("1", [])]).sent :=
  no_email_customer_excluded envNoEmail [("1", [])] "1" [] ⟨"Acme", "", "", ""⟩ rfl rfl

/-- C5: the constructed filter expressions select exactly the invoices
with the open status code `CustInvc:A` whose due date is strictly
before the start of the current month (`som`); the primary variant
additionally restricts results to each transaction's main line, which
is the invoice-level row. -/
theorem invoice_filter_selects_overdue_open (som : Int) (inv : InvoiceRecord) :
    (matchesFilters som inv invoiceFiltersV2 = true ↔
      inv.status = "CustInvc:A" ∧ inv.duedate < som) ∧
    (matchesFilters som inv invoiceFiltersPrimary = true ↔
      inv.status = "CustInvc:A" ∧ inv.duedate < som ∧ inv.mainline = true) := by
  constructor <;>
    simp [matchesFilters, evalFilter, invoiceFiltersV2, invoiceFiltersPrimary, and_assoc]

/-- C6: `daysOverdue` is the floor of the exact millisecond difference
divided by 86400000, and is non-negative whenever the clock is not set
before the due date. -/
theorem daysOverdue_floor_nonneg (now due : Int) :
    daysOverdue now due = ⌊((now - due : Int) : ℚ) / (86400000 : ℚ)⌋ ∧
    (due ≤ now → 0 ≤ daysOverdue now due) := by
  constructor
  · rw [show ((86400000 : ℚ)) = ((86400000 : ℕ) : ℚ) from by norm_cast,
      Rat.floor_intCast_div_natCast, daysOverdue]
    norm_cast
  · intro h
    exact Int.ediv_nonneg (sub_nonneg.mpr h) (by norm_num)

/-- C6 witness: one day plus one millisecond past the due date is one
day overdue and non-negative. -/
theorem daysOverdue_floor_nonneg_witness :
    daysOverdue 86400001 1 = ⌊((86400001 - 1 : Int) : ℚ) / (86400000 : ℚ)⌋ ∧
    0 ≤ daysOverdue 86400001 1 :=
  ⟨(daysOverdue_floor_nonneg 86400001 1).1,
    (daysOverdue_floor_nonneg 86400001 1).2 (by norm_num)⟩

end OverdueEmail
namespace OverdueEmail

/-- C7: for both CSV renderers, the text starts with the constant
header line, and — the interpolated fields being free of the record
separator, as the host's opaque identifiers are — the total number of
newline-terminated records is the group's invoice count plus the single
header, i.e. exactly one data row per invoice in the group. -/
theorem csv_header_and_row_count (name cemail : String) (invs : List InvoiceSummary)
    (hn : noNL name) (he : noNL cemail)
    (hf : ∀ inv ∈ invs,
      noNL inv.invoiceNumber ∧ noNL inv.amount ∧ noNL (toString inv.daysOverdue)) :
    ((csvHeader ++ "\n").data <+: (createCSVContent name cemail invs).data) ∧
    (createCSVContent name cemail invs).data.count '\n' = invs.length + 1 ∧
    ((csvHeader2 ++ "\n").data <+: (generateCsvContent invs).data) ∧
    (generateCsvContent invs).data.count '\n' = invs.length + 1 := by
  have hline : ∀ inv ∈ invs, (csvLine name cemail inv).data.count '\n' = 0 := by
    intro inv hinv
    obtain ⟨h1, h2, h3⟩ := hf inv hinv
    exact csvLine_no_newline name cemail inv hn he h1 h2 h3
  have hline2 : ∀ inv ∈ invs, (csvLine2 inv).data.count '\n' = 0 := by
    intro inv hinv
    obtain ⟨h1, h2, h3⟩ := hf inv hinv
    exact csvLine2_no_newline inv h1 h2 h3
  have hh1 : (csvHeader ++ "\n").data.count '\n' = 1 := by decide
  have hh2 : (csvHeader2 ++ "\n").data.count '\n' = 1 := by decide
  refine ⟨?_, ?_, ?_, ?_⟩
  · exact foldl_csvline_prefix (csvLine name cemail) invs (csvHeader ++ "\n")
  · rw [createCSVContent, foldl_csvline_count_eq (csvLine name cemail) invs hline, hh1]
    omega
  · exact foldl_csvline_prefix csvLine2 invs (csvHeader2 ++ "\n")
  · rw [generateCsvContent, foldl_csvline_count_eq csvLine2 invs hline2, hh2]
    omega

/-- C7 witness: a one-invoice group renders to a CSV whose header is
first and which has exactly two newline-terminated records. -/
theorem csv_header_and_row_count_witness :
    ((csvHeader ++ "\n").data
        <+: (createCSVContent "Acme" "a@b.com" [⟨"INV1", "100", 60⟩]).data) ∧
    (createCSVContent "Acme" "a@b.com" [⟨"INV1", "100", 60⟩]).data.count '\n' = 1 + 1 ∧
    ((csvHeader2 ++ "\n").data <+: (generateCsvContent [⟨"INV1", "100", 60⟩]).data) ∧
    (generateCsvContent [⟨"INV1", "100", 60⟩]).data.count '\n' = 1 + 1 :=
  csv_header_and_row_count "Acme" "a@b.com" [⟨"INV1", "100", 60⟩]
    (by decide) (by decide) (by decide)

/-- C8: with zero invoices matched, the primary `execute` exits early
and successfully: nothing is sent, the log is exactly the start entry
followed by the `No Invoices Found` no-op entry, and no dispatch code
runs; the other two variants guard on the same empty grouping. -/
theorem zero_invoices_noop_exit (env : Env) (now : Int) :
    executeRun env now [] = ⟨[], [startLog, noInvoicesLog]⟩ ∧
    getOverdueInvoices now [] = [] :=
  ⟨rfl, rfl⟩

/-- C9: the primary dedup key is the bare concatenation
`customerId ++ "_" ++ invoiceNumber`, so the distinct pairs
("1", "2_3") and ("1_2", "3") collide; grouping the two rows keeps only
the first and silently drops customer "1_2"'s invoice — its group is
never even created. -/
theorem dedup_key_collision_drops_invoice :
    invoiceKey "1" "2_3" = invoiceKey "1_2" "3" ∧
    (("1", "2_3") : String × String) ≠ ("1_2", "3") ∧
    searchOverdueInvoices 0 [⟨"1", "2_3", "100", 0⟩, ⟨"1_2", "3", "200", 0⟩]
      = [("1", [⟨"2_3", "100", 0⟩])] := by
  decide

/-- C10: every key of either variant's grouping maps to a non-empty
invoice list (a key is created only by pushing an invoice), and hence
every email the primary run sends carries a CSV with at least one data
record after the header (at least two newline-terminated records in
all). -/
theorem groups_nonempty_csv_has_rows (now : Int) (rows : List InvoiceRow) :
    (∀ k l, (k, l) ∈ searchOverdueInvoices now rows → l ≠ []) ∧
    (∀ k l, (k, l) ∈ getOverdueInvoices now rows → l ≠ []) ∧
    (∀ env : Env, ∀ p ∈ (executeRun env now rows).sent, 2 ≤ p.2.csv.data.count '\n') := by
  have hprim : ∀ k l, (k, l) ∈ searchOverdueInvoices now rows → l ≠ [] :=
    foldl_stepPrimary_ne_nil now rows ⟨[], 0, []⟩ (by simp)
  refine ⟨hprim, foldl_stepNoDedup_ne_nil now rows [] (by simp), ?_⟩
  intro env p hp
  by_cases hg : searchOverdueInvoices now rows = []
  · simp [executeRun, hg] at hp
  · simp only [executeRun, if_neg hg] at hp
    rw [processCustomerNotifications_sent] at hp
    rcases List.mem_filterMap.mp hp with ⟨g, hgmem, hout⟩
    cases hsc : sendCustomerEmail env g.1 g.2 with
    | error m => simp [dispatchOutcome, hsc] at hout
    | ok q =>
        obtain ⟨ls, oe⟩ := q
        cases oe with
        | none => simp [dispatchOutcome, hsc] at hout
        | some e =>
            simp [dispatchOutcome, hsc] at hout
            obtain ⟨f, hcust, hemail, hcsv, hrec⟩ := sendCustomerEmail_some_csv hsc
            have hne : g.2 ≠ [] := hprim g.1 g.2 (by rwa [← Prod.mk.eta (p := g)] at hgmem)
            have hlen : 1 ≤ g.2.length := List.length_pos.mpr hne
            have hcount := foldl_csvline_count_ge
              (csvLine (displayName f) f.email) g.2 (csvHeader ++ "\n")
            have hh1 : (csvHeader ++ "\n").data.count '\n' = 1 := by decide
            subst hout
            dsimp only
            rw [hcsv, createCSVContent]
            omega

/-- C10 witness: the happy-path run over one invoice row sends one
email whose CSV counts two newline-terminated records. -/
theorem groups_nonempty_csv_has_rows_witness :
    (([⟨"INV1", "100", 0⟩] : List InvoiceSummary) ≠ []) ∧
    2 ≤ happySent.2.csv.data.count '\n' :=
  ⟨(groups_nonempty_csv_has_rows 0 [⟨"1", "INV1", "100", 0⟩]).1 "1" _ (by decide),
    (groups_nonempty_csv_has_rows 0 [⟨"1", "INV1", "100", 0⟩]).2.2 envHappy
      happySent (by decide)⟩

end OverdueEmail
